import Mathlib

/-!
# Verification of the EDI Control Tower frontend

A shallow embedding of the Python modules of the `edi-control-tower`
repository (Streamlit frontend with an n8n webhook backend), together with
proofs about the embedded functions.

Python/JSON values are modelled by the inductive type `PyVal`; numbers are
modelled by rationals.  Python booleans are a distinct constructor, but —
as in Python, where `bool` is a subclass of `int` — the embedding of every
`isinstance(x, (int, float))` check accepts them (see `pyNumVal?`).
-/

/-- Python/JSON values as handled by the frontend modules.  `num` covers both
Python `int` and `float` (modelled exactly by rationals); `dict` is an
association list in insertion order, keys unique. -/
inductive PyVal where
  | none  : PyVal
  | bool  : Bool → PyVal
  | num   : ℚ → PyVal
  | str   : String → PyVal
  | list  : List PyVal → PyVal
  | dict  : List (String × PyVal) → PyVal

/-- Embedding of Python `s.strip()`: drop whitespace from both ends.
(Implemented over the character list so that it evaluates by `rfl`.) -/
def pyStrip (s : String) : String :=
  String.mk (((s.data.dropWhile Char.isWhitespace).reverse.dropWhile Char.isWhitespace).reverse)

/-- Embedding of Python `s.lower()`: lowercase every character.
(Implemented over the character list so that it evaluates by `rfl`.) -/
def pyLower (s : String) : String :=
  String.mk (s.data.map Char.toLower)

/-- Embedding of Python `d.get(k)` on a dict (returns `None` when the key is
missing, and `None` on non-dict receivers, which the sources guard with
`isinstance` checks before calling `.get`). -/
def pyGet (v : PyVal) (k : String) : PyVal :=
  match v with
  | .dict kvs =>
      match kvs.find? (fun p => p.1 = k) with
      | some p => p.2
      | Option.none => PyVal.none
  | _ => PyVal.none

/-- Embedding of Python truthiness (`bool(v)`), as used by `v or default`. -/
def pyTruthy : PyVal → Bool
  | .none => false
  | .bool b => b
  | .num q => q ≠ 0
  | .str s => s ≠ ""
  | .list xs => !xs.isEmpty
  | .dict kvs => !kvs.isEmpty

/-- Embedding of `isinstance(v, dict)`. -/
def PyVal.isDict : PyVal → Bool
  | .dict _ => true
  | _ => false

/-- Embedding of `isinstance(v, (int, float))`, yielding the numeric value.
In Python `bool` is a subclass of `int`, so `True`/`False` pass this check
with values `1`/`0`. -/
def pyNumVal? : PyVal → Option ℚ
  | .num q => some q
  | .bool b => some (if b then 1 else 0)
  | _ => Option.none

/-! ## `api/n8n_client.py` — response decoding (`_json_or_text`) -/

/-- An HTTP response as seen by `_json_or_text`: its raw body text
(`resp.content` / `resp.text`) and the result of `resp.json()`
(`Option.none` models the `ValueError` raised on a non-JSON body). -/
structure HttpResponse where
  content : String
  parsed : Option PyVal

/-- Embedding of `N8NClient._json_or_text` (src/api/n8n_client.py:59-69):
empty body → `{}`; JSON object → returned as-is; other JSON value `v` →
`{"data": v}`; non-JSON body → `{"text": raw_text}`. -/
def jsonOrText (resp : HttpResponse) : PyVal :=
  if resp.content = "" then .dict []
  else
    match resp.parsed with
    | some (.dict kvs) => .dict kvs
    | some payload => .dict [("data", payload)]
    | Option.none => .dict [("text", .str resp.content)]

/-! ## `ui/tracker.py` / `ui/incidents.py` — payload normalizers -/

/-- Shared shape of the two normalizers: scan `keys` in order, return the
first value that is a list (filtered to its dict elements). -/
def normalizeByKeys (payload : PyVal) : List String → List PyVal
  | [] => []
  | k :: ks =>
      match pyGet payload k with
      | .list xs => xs.filter (fun d => d.isDict)
      | _ => normalizeByKeys payload ks

/-- Embedding of `_normalize_documents` (src/ui/tracker.py:108-121):
lists are filtered to dict elements; dicts are scanned for the first of
`documents`/`data`/`items`/`results` holding a list; anything else → `[]`. -/
def normalizeDocuments (payload : PyVal) : List PyVal :=
  match payload with
  | .list xs => xs.filter (fun d => d.isDict)
  | .dict _ => normalizeByKeys payload ["documents", "data", "items", "results"]
  | _ => []

/-- Embedding of `_normalize_incidents` (src/ui/incidents.py:36-49): same as
`_normalize_documents` but the scanned keys are
`incidents`/`data`/`items`/`results`. -/
def normalizeIncidents (payload : PyVal) : List PyVal :=
  match payload with
  | .list xs => xs.filter (fun d => d.isDict)
  | .dict _ => normalizeByKeys payload ["incidents", "data", "items", "results"]
  | _ => []

/-! ## `auth/roles.py` — roles, features, permissions -/

/-- Embedding of `Role` (src/auth/roles.py:8-11). -/
inductive Role where
  | ops
  | manager
  | exec
deriving DecidableEq

/-- The `.value` of each `Role` member. -/
def Role.value : Role → String
  | .ops => "Ops"
  | .manager => "Manager"
  | .exec => "Exec"

/-- Embedding of the `Role(raw)` enum lookup: exact match against the three
member values, `ValueError` modelled as `Option.none`. -/
def roleOfValue (s : String) : Option Role :=
  if s = "Ops" then some .ops
  else if s = "Manager" then some .manager
  else if s = "Exec" then some .exec
  else Option.none

/-- Embedding of `get_current_role` (src/auth/roles.py:42-52).  The argument
is the value of the `CONTROL_TOWER_ROLE` environment variable
(`Option.none` = unset).  `os.getenv(..., "Ops")` supplies the default, the
`or` replaces an empty string, `.strip()` trims, and an unrecognized value
falls back to `Role.ops`. -/
def getCurrentRole (envVal : Option String) : Role :=
  let g0 := envVal.getD Role.ops.value
  let g1 := if g0 = "" then Role.ops.value else g0
  let raw := pyStrip g1
  match roleOfValue raw with
  | some r => r
  | Option.none => Role.ops

/-- Embedding of `Feature` (src/auth/roles.py:14-18). -/
inductive Feature where
  | chatbot
  | upload
  | kpis
  | incidents
deriving DecidableEq

/-- Embedding of `_ROLE_FEATURES` (src/auth/roles.py:28-32), sets as lists. -/
def roleFeatures : Role → List Feature
  | .ops => [.chatbot, .upload, .kpis, .incidents]
  | .manager => [.chatbot, .upload, .kpis, .incidents]
  | .exec => [.chatbot, .kpis, .incidents]

/-- Embedding of `features_for` + `can_access` with an explicit role
(src/auth/roles.py:55-62). -/
def canAccess (f : Feature) (r : Role) : Bool :=
  (roleFeatures r).contains f

/-! ## `ui/upload.py` — progress extraction and the polling loop -/

/-- Embedding of `_extract_progress` (src/ui/upload.py:42-49): a numeric
`progress` field (Python booleans included, values `1`/`0`) is normalized to
the 0..1 scale — divided by 100 when above 1 — and clamped into `[0, 1]`;
anything else gives `None`. -/
def extractProgress (statusResp : PyVal) : Option ℚ :=
  match pyNumVal? (pyGet statusResp "progress") with
  | some val =>
      if 1 < val then some (max 0 (min 1 (val / 100)))
      else some (max 0 (min 1 val))
  | Option.none => Option.none

/-- The terminal-status strings of `_is_done` (src/ui/upload.py:56). -/
def terminalStatuses : List String :=
  ["completed", "complete", "succeeded", "success", "failed", "error", "cancelled"]

/-- The terminal-status strings as the specification sentence lists them
("completed/succeeded/failed/error/cancelled"); kept separate from the
code's `terminalStatuses` so the two can be compared. -/
def specTerminalStatuses : List String :=
  ["completed", "succeeded", "failed", "error", "cancelled"]

/-- Embedding of `(status_resp.get("status") or "").lower()` inside
`_is_done`.  A truthy non-string value has no `.lower()` and raises
`AttributeError` in Python, modelled by `Except.error`. -/
def lowerStatus (statusResp : PyVal) : Except Unit String :=
  let v := pyGet statusResp "status"
  if pyTruthy v then
    match v with
    | .str s => .ok (pyLower s)
    | _ => .error ()
  else .ok ""

/-- Embedding of `_is_done` (src/ui/upload.py:52-56): true when the `done`
field `is True`, or when the lowercased `status` string is terminal.
`Except.error` models the `AttributeError` raised on a truthy non-string
`status`. -/
def isDoneE (statusResp : PyVal) : Except Unit Bool :=
  match pyGet statusResp "done" with
  | .bool true => .ok true
  | _ => (lowerStatus statusResp).map (fun s => terminalStatuses.contains s)

/-- One iteration's outcome of the body of the polling loop in `render`
(src/ui/upload.py:475-561): the poll produced a status response, produced
no data yet (the database branch's "waiting for document events" case,
which sleeps and continues), or raised an exception. -/
inductive PollStep where
  | resp (statusResp : PyVal)
  | wait
  | exc

/-- How the polling loop exits: the max-wait timeout, a terminal status
response, or an exception caught mid-poll. -/
inductive LoopExit where
  | timedOut
  | done (statusResp : PyVal)
  | failed

/-- Embedding of the polling loop of `render` (src/ui/upload.py:475-561),
given the sequence of poll outcomes.  Each iteration first checks
`time.time() - started > max_wait_s`, then polls; an exception (either the
poll itself or `_is_done` on a truthy non-string status) breaks with the
error message (`failed`); a terminal status breaks (`done`); otherwise the
loop sleeps `interval` seconds and repeats, so `elapsed` grows by
`interval` per iteration. -/
def pollLoop (seq : Nat → PollStep) (maxWait interval : Nat)
    (hI : 0 < interval) (elapsed n : Nat) : LoopExit :=
  if maxWait < elapsed then .timedOut
  else
    match seq n with
    | .exc => .failed
    | .wait => pollLoop seq maxWait interval hI (elapsed + interval) (n + 1)
    | .resp r =>
        match isDoneE r with
        | .error _ => .failed
        | .ok true => .done r
        | .ok false => pollLoop seq maxWait interval hI (elapsed + interval) (n + 1)
termination_by maxWait + 1 - elapsed
decreasing_by
  all_goals omega

/-! ## `ui/upload.py` — database branch: stages and completion ratio -/

/-- Embedding of `_infer_step_name` (src/ui/upload.py:228-236): the first of
`stage`/`step`/`step_name`/`activity`/`task`/`event_type`/`type` that holds a
non-blank string (stripped); otherwise the `status` value stringified, or
`"event"` when `status` is `None`.  `pyStr` below abstracts Python's
`str()` rendering on the (non-string) last-resort values. -/
def pyStr : PyVal → String
  | .none => "None"
  | .bool true => "True"
  | .bool false => "False"
  | .num q => toString q
  | .str s => s
  | .list _ => "[...]"
  | .dict _ => "{...}"

/-- The key list scanned by `_infer_step_name`. -/
def stepNameKeys : List String :=
  ["stage", "step", "step_name", "activity", "task", "event_type", "type"]

/-- Scan `keys` for the first non-blank string field of `event`. -/
def firstNonBlankStr (event : PyVal) : List String → Option String
  | [] => Option.none
  | k :: ks =>
      match pyGet event k with
      | .str v => if pyStrip v = "" then firstNonBlankStr event ks else some (pyStrip v)
      | _ => firstNonBlankStr event ks

/-- Embedding of `_infer_step_name` (src/ui/upload.py:228-236). -/
def inferStepName (event : PyVal) : String :=
  match firstNonBlankStr event stepNameKeys with
  | some s => s
  | Option.none =>
      match pyGet event "status" with
      | .none => "event"
      | v => pyStr v

/-- Embedding of `_infer_status` (src/ui/upload.py:239-248):
`status or state or result` if a non-blank string (stripped, lowercased);
else `event_type or type` likewise; else `"unknown"`.  The `or` chains use
Python truthiness but the `isinstance(v, str)` guard then restricts to
strings. -/
def inferStatus (event : PyVal) : String :=
  let v := if pyTruthy (pyGet event "status") then pyGet event "status"
           else if pyTruthy (pyGet event "state") then pyGet event "state"
           else pyGet event "result"
  match v with
  | .str s =>
      if pyStrip s = "" then inferStatusFallback event else pyLower (pyStrip s)
  | _ => inferStatusFallback event
where
  /-- The `event_type or type` fallback and the final `"unknown"`. -/
  inferStatusFallback (event : PyVal) : String :=
    let v2 := if pyTruthy (pyGet event "event_type") then pyGet event "event_type"
              else pyGet event "type"
    match v2 with
    | .str s => if pyStrip s = "" then "unknown" else pyLower (pyStrip s)
    | _ => "unknown"

/-- Embedding of `_status_bucket` (src/ui/upload.py:251-259). -/
def statusBucket (status : String) : String :=
  let s := pyLower status
  if ["completed", "complete", "success", "succeeded", "processed", "done", "resolved"].contains s
    then "ok"
  else if ["failed", "error", "exception", "rejected", "cancelled", "canceled"].contains s
    then "fail"
  else if ["processing", "running", "in_progress", "in-progress", "queued", "pending"].contains s
    then "active"
  else "unknown"

/-- The `seen`-set deduplication of stage names (src/ui/upload.py:506-513):
keep the first occurrence of each name, preserving order. -/
def dedupFirst (l : List String) : List String :=
  l.foldl (fun acc s => if acc.contains s then acc else acc ++ [s]) []

/-- The distinct stage names of an event list, in first-appearance order. -/
def stagesOf (events : List PyVal) : List String :=
  dedupFirst (events.map inferStepName)

/-- `dict` assignment `m[k] = v` on an association list: overwrite in place
if the key exists, else append. -/
def assocSet (m : List (String × PyVal)) (k : String) (v : PyVal) :
    List (String × PyVal) :=
  if m.any (fun p => p.1 = k) then m.map (fun p => if p.1 = k then (k, v) else p)
  else m ++ [(k, v)]

/-- `dict` lookup `m.get(k)` on an association list. -/
def assocGet? (m : List (String × PyVal)) (k : String) : Option PyVal :=
  (m.find? (fun p => p.1 = k)).map (fun p => p.2)

/-- Embedding of the `latest_by_stage` dict build (src/ui/upload.py:517-519):
iterate the (event-time-ascending) events, the later event for a stage
overwriting the earlier. -/
def latestByStage (events : List PyVal) : List (String × PyVal) :=
  events.foldl (fun m ev => assocSet m (inferStepName ev) ev) []

/-- The stage-completion count (src/ui/upload.py:520-523): the number of
stages whose latest event's status falls in the `"ok"` bucket
(`latest_by_stage.get(s, {})` defaults to the empty dict). -/
def okStageCount (events : List PyVal) : Nat :=
  (stagesOf events).countP
    (fun s => statusBucket (inferStatus ((assocGet? (latestByStage events) s).getD (.dict []))) = "ok")

/-- Embedding of the progress computation of the database branch of the
polling loop (src/ui/upload.py:497-524): the latest event's numeric
`progress` when present (0..100 interpreted when above 1, Python booleans
passing the `isinstance` check as `1`/`0`); otherwise the stage-completion
ratio `ok / max(1, len(stages))`; `None` when there are no stages. -/
def dbDerivedProgress (events : List PyVal) : Option ℚ :=
  let lastEvent := (events.getLast?).getD (.dict [])
  match pyNumVal? (pyGet lastEvent "progress") with
  | some rawP => some (if 1 < rawP then rawP / 100 else rawP)
  | Option.none =>
      let stages := stagesOf events
      if stages.isEmpty then Option.none
      else some ((okStageCount events : ℚ) / (max 1 stages.length : ℕ))

/-! ## `ui/tracker.py` / `ui/chatbot.py` — the "effectively empty" predicate -/

/-- The loop body of tracker's `_is_effectively_empty_list`
(src/ui/tracker.py:128-135): an element is skipped (counts as empty) when it
is an empty dict, `None`, or a blank string. -/
def trackerItemEmpty (item : PyVal) : Bool :=
  match item with
  | .dict kvs => kvs.length = 0
  | .none => true
  | .str s => pyStrip s = ""
  | _ => false

/-- The loop body of chatbot's `_is_effectively_empty_list`
(src/ui/chatbot.py:42-49); it checks `None` before empty dicts, otherwise
identical to the tracker's. -/
def chatbotItemEmpty (item : PyVal) : Bool :=
  match item with
  | .none => true
  | .dict kvs => kvs.length = 0
  | .str s => pyStrip s = ""
  | _ => false

/-- Embedding of `_is_effectively_empty_list` (src/ui/tracker.py:124-136):
non-lists and empty lists are "empty"; a non-empty list is "empty" iff every
element is skipped by the loop. -/
def isEffectivelyEmptyListTracker (val : PyVal) : Bool :=
  match val with
  | .list items =>
      if items.length = 0 then true else items.all trackerItemEmpty
  | _ => true

/-- Embedding of `_is_effectively_empty_list` (src/ui/chatbot.py:39-50). -/
def isEffectivelyEmptyListChatbot (val : PyVal) : Bool :=
  match val with
  | .list items =>
      if items.length = 0 then true else items.all chatbotItemEmpty
  | _ => true

/-! ## `utils/live_status.py` — backend health -/

/-- Outcome of the single health-check HTTP call: the endpoint answered OK,
answered non-OK, or the call raised (timeout, connection error, ...). -/
inductive HealthOutcome where
  | ok
  | httpFail
  | raised
deriving DecidableEq

/-- Modelled from the spec: `N8NClient.health_check` is called by
`get_live_status` (src/utils/live_status.py:27) but is not defined under
`src/` — the `N8NClient` class (src/api/n8n_client.py:28-141) has no such
method.  Per the spec it performs one GET to a health endpoint with a short
timeout and catches any exception, mapping failure or exception to
`False`. -/
def healthCheck : HealthOutcome → Bool
  | .ok => true
  | .httpFail => false
  | .raised => false

/-- Embedding of the `LiveStatus` dataclass (src/utils/live_status.py:10-14);
timestamps are abstracted to naturals. -/
structure LiveStatus where
  ok : Bool
  checked_at : Nat
  details : List (String × PyVal)

/-- Embedding of `get_live_status` (src/utils/live_status.py:21-34), as a
function of the current time and of the health-check call's outcome. -/
def getLiveStatus (now : Nat) (outcome : HealthOutcome) : LiveStatus :=
  let n8nOk := healthCheck outcome
  { ok := n8nOk
  , checked_at := now
  , details := [("n8n", .dict [("ok", .bool n8nOk)])] }

/-! ## `app.py` — sidebar role selector and the environment -/

/-- Embedding of `UserRole` (src/app.py:16-19), the sidebar's business
roles (distinct from `auth.roles.Role`). -/
inductive UserRole where
  | ops
  | manager
  | exec
deriving DecidableEq

/-- Embedding of `_BUSINESS_ROLE_TO_EDI_ROLE` (src/app.py:23-27). -/
def businessRoleToEdiRole : UserRole → String
  | .ops => "operator"
  | .manager => "admin"
  | .exec => "viewer"

/-- A process environment, as an association list of variables. -/
def Env : Type := List (String × String)

/-- `os.getenv(k)` on the modelled environment. -/
def envGet (env : Env) (k : String) : Option String :=
  (List.find? (fun p => p.1 = k) env).map (fun p => p.2)

/-- Embedding of `_set_edi_role_env` (src/app.py:45-50):
`os.environ["EDI_ROLE"] = _BUSINESS_ROLE_TO_EDI_ROLE[selected]`.  The new
binding is prepended; since `envGet` returns the first match, this makes
`EDI_ROLE` read back the written value and leaves every other variable
unchanged, exactly the observable effect of the assignment. -/
def setEdiRoleEnv (selected : UserRole) (env : Env) : Env :=
  ("EDI_ROLE", businessRoleToEdiRole selected) :: env

/-- The role the auth helpers see for a given environment:
`get_current_role` reads `CONTROL_TOWER_ROLE` (src/auth/roles.py:48). -/
def currentRoleInEnv (env : Env) : Role :=
  getCurrentRole (envGet env "CONTROL_TOWER_ROLE")

/-! ## `ui/upload.py` — the `render` entry and its permission gate -/

/-- What the upload webhook backend does for this page run: `file_upload`
either raises (`Except.error`, with the exception text) or returns a decoded
response (src/api/n8n_client.py:106-129). -/
structure UploadBackend where
  uploadResult : Except String PyVal

/-- The page's inputs: the chosen file (name, size), and whether the
"Send to n8n and process" button was clicked. -/
structure UploadPageInput where
  uploaded : Option (String × Nat)
  clicked : Bool

/-- Observable UI writes of the upload page. -/
inductive UiMsg where
  | title (text : String)
  | info (text : String)
  | caption (text : String)
  | success (text : String)
  | error (text : String)
  | json
deriving DecidableEq

/-- The observable outcome of one `render` run: the messages written and the
number of webhook calls (`file_upload`) and database connections made. -/
structure RenderTrace where
  msgs : List UiMsg
  webhookCalls : Nat
  dbCalls : Nat
deriving DecidableEq

/-- Embedding of the entry of `render` (src/ui/upload.py:383-443): the title,
then the `can_access(Feature.upload, get_current_role())` gate — a denied
role gets the info message and `render` returns with no backend touched; an
allowed role proceeds to the uploader and, once the button is clicked, to
the `file_upload` webhook call (the subsequent polling is modelled
separately by `pollLoop`). -/
def uploadRender (role : Role) (backend : UploadBackend) (inp : UploadPageInput) :
    RenderTrace :=
  let t0 : List UiMsg := [.title "File upload"]
  if ¬ canAccess Feature.upload role then
    { msgs := t0 ++ [.info "Your role does not allow uploads."], webhookCalls := 0, dbCalls := 0 }
  else
    let t1 := t0 ++
      [.caption "Upload an EDI file and trigger an n8n automation. The UI will poll for live updates."]
    match inp.uploaded with
    | Option.none => { msgs := t1, webhookCalls := 0, dbCalls := 0 }
    | some (name, size) =>
        let t2 := t1 ++ [.success (s!"Uploaded: {name} ({size} bytes)"), .json]
        if ¬ inp.clicked then { msgs := t2, webhookCalls := 0, dbCalls := 0 }
        else
          match backend.uploadResult with
          | .error e =>
              { msgs := t2 ++ [.error (s!"Upload failed: {e}")], webhookCalls := 1, dbCalls := 0 }
          | .ok _resp =>
              { msgs := t2 ++ [.success "Upload accepted by n8n"], webhookCalls := 1, dbCalls := 0 }

/-- "Its progress field is a number" as the specification reads it (a JSON
number; JSON booleans are not numbers); kept separate from the code's
`isinstance(val, (int, float))` check (`pyNumVal?`) so the two can be
compared. -/
def specIsNumber : PyVal → Bool
  | .num _ => true
  | _ => false

/-! ## Theorems -/

/-- C1: `_json_or_text` maps an empty body to `{}`, is the identity on
object-shaped JSON, wraps a non-object JSON value `v` as `{"data": v}`,
wraps a non-JSON body as `{"text": raw_text}`, and always returns an
object-shaped mapping. -/
theorem C1_json_or_text_decoding :
    (∀ r : HttpResponse, r.content = "" → jsonOrText r = .dict []) ∧
    (∀ (r : HttpResponse) (kvs : List (String × PyVal)),
      r.content ≠ "" → r.parsed = some (.dict kvs) → jsonOrText r = .dict kvs) ∧
    (∀ (r : HttpResponse) (v : PyVal),
      r.content ≠ "" → r.parsed = some v → (∀ kvs, v ≠ .dict kvs) →
      jsonOrText r = .dict [("data", v)]) ∧
    (∀ r : HttpResponse, r.content ≠ "" → r.parsed = Option.none →
      jsonOrText r = .dict [("text", .str r.content)]) ∧
    (∀ r : HttpResponse, ∃ kvs, jsonOrText r = .dict kvs) := by
  refine ⟨?_, ?_, ?_, ?_, ?_⟩
  · intro r h
    simp [jsonOrText, h]
  · intro r kvs h hp
    simp [jsonOrText, h, hp]
  · intro r v h hp hnd
    cases v with
    | dict kvs => exact absurd rfl (hnd kvs)
    | none => simp [jsonOrText, h, hp]
    | bool b => simp [jsonOrText, h, hp]
    | num q => simp [jsonOrText, h, hp]
    | str s => simp [jsonOrText, h, hp]
    | list xs => simp [jsonOrText, h, hp]
  · intro r h hp
    simp [jsonOrText, h, hp]
  · intro r
    unfold jsonOrText
    split
    · exact ⟨[], rfl⟩
    · split
      · exact ⟨_, rfl⟩
      · exact ⟨_, rfl⟩
      · exact ⟨_, rfl⟩

/-- Witness for C1 at concrete responses. -/
theorem C1_witness :
    jsonOrText ⟨"", Option.none⟩ = .dict [] ∧
    jsonOrText ⟨"ob", some (.dict [("a", .num 1)])⟩ = .dict [("a", .num 1)] ∧
    jsonOrText ⟨"li", some (.list [.num 1, .num 2])⟩ = .dict [("data", .list [.num 1, .num 2])] ∧
    jsonOrText ⟨"hello", Option.none⟩ = .dict [("text", .str "hello")] :=
  ⟨C1_json_or_text_decoding.1 ⟨"", Option.none⟩ rfl,
   C1_json_or_text_decoding.2.1 ⟨"ob", some (.dict [("a", .num 1)])⟩ [("a", .num 1)]
     (by simp) rfl,
   C1_json_or_text_decoding.2.2.1 ⟨"li", some (.list [.num 1, .num 2])⟩ (.list [.num 1, .num 2])
     (by simp) rfl (fun kvs h => PyVal.noConfusion h),
   C1_json_or_text_decoding.2.2.2.1 ⟨"hello", Option.none⟩ (by simp) rfl⟩

/-- C2 fails as stated: the incident normalizer scans the keys
`incidents`/`data`/`items`/`results` and does not recognize the
`{"documents": [...]}` shape, returning `[]` rather than the two records. -/
theorem C2_counterexample :
    normalizeIncidents
        (.dict [("documents", .list [.dict [("a", .num 1)], .dict [("b", .num 2)]])]) = [] ∧
    ([] : List PyVal) ≠ [.dict [("a", .num 1)], .dict [("b", .num 2)]] :=
  ⟨rfl, by simp⟩

/-- C2 amended: for dict-shaped records, the tracker normalizer yields
`[d1, d2]` on all three shapes; the incident normalizer yields `[d1, d2]`
on `{"incidents": ...}`, `{"data": ...}` and the bare list, but `[]` on
`{"documents": ...}`. -/
theorem C2_amended :
    ∀ d1 d2 : PyVal, d1.isDict = true → d2.isDict = true →
      normalizeDocuments (.dict [("documents", .list [d1, d2])]) = [d1, d2] ∧
      normalizeDocuments (.dict [("data", .list [d1, d2])]) = [d1, d2] ∧
      normalizeDocuments (.list [d1, d2]) = [d1, d2] ∧
      normalizeIncidents (.dict [("incidents", .list [d1, d2])]) = [d1, d2] ∧
      normalizeIncidents (.dict [("data", .list [d1, d2])]) = [d1, d2] ∧
      normalizeIncidents (.list [d1, d2]) = [d1, d2] ∧
      normalizeIncidents (.dict [("documents", .list [d1, d2])]) = [] := by
  intro d1 d2 h1 h2
  refine ⟨?_, ?_, ?_, ?_, ?_, ?_, ?_⟩ <;>
    simp [normalizeDocuments, normalizeIncidents, normalizeByKeys, pyGet,
      List.find?, List.filter, h1, h2]

/-- Witness for C2 amended at two concrete records. -/
theorem C2_amended_witness :
    normalizeDocuments (.dict [("documents", .list [.dict [("x", .num 1)], .dict []])]) =
      [.dict [("x", .num 1)], .dict []] ∧
    normalizeIncidents (.dict [("documents", .list [.dict [("x", .num 1)], .dict []])]) = [] :=
  ⟨(C2_amended (.dict [("x", .num 1)]) (.dict []) rfl rfl).1,
   (C2_amended (.dict [("x", .num 1)]) (.dict []) rfl rfl).2.2.2.2.2.2⟩

/-- C4 fails as stated: `get_current_role` only whitespace-trims; the
`Role(raw)` lookup is exact-case, so the recognized lowercase spelling
`"manager"` falls back to the default `Role.ops` instead of
`Role.manager`. -/
theorem C4_counterexample :
    getCurrentRole (some "manager") = Role.ops ∧ Role.ops ≠ Role.manager :=
  ⟨rfl, by decide⟩

/-- C4 amended: `get_current_role` never raises (it is total); it
whitespace-trims the value and returns the matching `Role` for the
exact-case member values `"Ops"`/`"Manager"`/`"Exec"`; it returns the
default `Role.ops` when the variable is unset or empty or the trimmed
value is unrecognized (including case variants of recognized names). -/
theorem C4_amended :
    getCurrentRole Option.none = Role.ops ∧
    getCurrentRole (some "") = Role.ops ∧
    (∀ v : String, pyStrip v = "Ops" → getCurrentRole (some v) = Role.ops) ∧
    (∀ v : String, pyStrip v = "Manager" → getCurrentRole (some v) = Role.manager) ∧
    (∀ v : String, pyStrip v = "Exec" → getCurrentRole (some v) = Role.exec) ∧
    (∀ v : String, pyStrip v ≠ "Ops" → pyStrip v ≠ "Manager" → pyStrip v ≠ "Exec" →
      getCurrentRole (some v) = Role.ops) := by
  refine ⟨rfl, rfl, ?_, ?_, ?_, ?_⟩
  · intro v h
    by_cases hv : v = ""
    · subst hv; rfl
    · simp [getCurrentRole, Role.value, hv, h, roleOfValue]
  · intro v h
    by_cases hv : v = ""
    · rw [hv] at h; exact absurd h (by decide)
    · simp [getCurrentRole, Role.value, hv, h, roleOfValue]
  · intro v h
    by_cases hv : v = ""
    · rw [hv] at h; exact absurd h (by decide)
    · simp [getCurrentRole, Role.value, hv, h, roleOfValue]
  · intro v h1 h2 h3
    by_cases hv : v = ""
    · subst hv; rfl
    · simp [getCurrentRole, Role.value, hv, roleOfValue, h1, h2, h3]

/-- Witness for C4 amended at concrete environment values. -/
theorem C4_amended_witness :
    getCurrentRole Option.none = Role.ops ∧
    getCurrentRole (some " Manager ") = Role.manager ∧
    getCurrentRole (some "viewer") = Role.ops :=
  ⟨C4_amended.1,
   C4_amended.2.2.2.1 " Manager " rfl,
   C4_amended.2.2.2.2.2 "viewer" (by decide) (by decide) (by decide)⟩

/-- The per-element characterization of the tracker's loop body. -/
theorem trackerItemEmpty_iff (item : PyVal) :
    trackerItemEmpty item = true ↔
      (item = PyVal.none ∨ item = PyVal.dict [] ∨
        ∃ s, item = PyVal.str s ∧ pyStrip s = "") := by
  cases item <;> simp [trackerItemEmpty, List.length_eq_zero]

/-- The tracker and chatbot copies of the loop body agree. -/
theorem trackerItemEmpty_eq_chatbot (item : PyVal) :
    trackerItemEmpty item = chatbotItemEmpty item := by
  cases item <;> rfl

/-- C9: `_is_effectively_empty_list` classifies `[]`, `[None]`, `[{}]`,
`[" "]` as empty and `[{"a": 1}]` as non-empty; a list is empty exactly when
every element is `None`, an empty dict, or a whitespace-only string; any
non-list is empty; the tracker and chatbot copies agree everywhere. -/
theorem C9_effectively_empty :
    isEffectivelyEmptyListTracker (.list []) = true ∧
    isEffectivelyEmptyListTracker (.list [.none]) = true ∧
    isEffectivelyEmptyListTracker (.list [.dict []]) = true ∧
    isEffectivelyEmptyListTracker (.list [.str " "]) = true ∧
    isEffectivelyEmptyListTracker (.list [.dict [("a", .num 1)]]) = false ∧
    (∀ items : List PyVal,
      isEffectivelyEmptyListTracker (.list items) = true ↔
        ∀ item ∈ items,
          item = PyVal.none ∨ item = PyVal.dict [] ∨
            ∃ s, item = PyVal.str s ∧ pyStrip s = "") ∧
    (∀ v : PyVal, (∀ xs, v ≠ .list xs) → isEffectivelyEmptyListTracker v = true) ∧
    (∀ v : PyVal, isEffectivelyEmptyListTracker v = isEffectivelyEmptyListChatbot v) := by
  refine ⟨rfl, rfl, rfl, rfl, rfl, ?_, ?_, ?_⟩
  · intro items
    cases items with
    | nil => simp [isEffectivelyEmptyListTracker]
    | cons x xs =>
        simp only [isEffectivelyEmptyListTracker, List.length_cons, if_neg (Nat.succ_ne_zero _),
          List.all_eq_true]
        constructor
        · intro h item hmem
          exact (trackerItemEmpty_iff item).mp (h item hmem)
        · intro h item hmem
          exact (trackerItemEmpty_iff item).mpr (h item hmem)
  · intro v hv
    cases v with
    | list xs => exact absurd rfl (hv xs)
    | none => rfl
    | bool b => rfl
    | num q => rfl
    | str s => rfl
    | dict kvs => rfl
  · intro v
    cases v with
    | list xs =>
        simp only [isEffectivelyEmptyListTracker, isEffectivelyEmptyListChatbot]
        have h : xs.all trackerItemEmpty = xs.all chatbotItemEmpty := by
          induction xs with
          | nil => rfl
          | cons x xs ih => simp [List.all_cons, ih, trackerItemEmpty_eq_chatbot x]
        rw [h]
    | none => rfl
    | bool b => rfl
    | num q => rfl
    | str s => rfl
    | dict kvs => rfl

/-- Witness for C9 at the concrete lists named by the claim. -/
theorem C9_witness :
    isEffectivelyEmptyListTracker (.list [.none, .dict [], .str " "]) = true ∧
    isEffectivelyEmptyListTracker (.num 3) = true :=
  ⟨(C9_effectively_empty.2.2.2.2.2.1 [.none, .dict [], .str " "]).mpr (by
      intro item hmem
      simp only [List.mem_cons, List.not_mem_nil, or_false] at hmem
      rcases hmem with rfl | rfl | rfl
      · exact Or.inl rfl
      · exact Or.inr (Or.inl rfl)
      · exact Or.inr (Or.inr ⟨" ", rfl, rfl⟩)),
   C9_effectively_empty.2.2.2.2.2.2.1 (.num 3) (fun xs h => PyVal.noConfusion h)⟩

/-- Writing `EDI_ROLE` leaves every other variable unchanged. -/
theorem envGet_setEdiRoleEnv_other (sel : UserRole) (env : Env) (k : String)
    (h : k ≠ "EDI_ROLE") :
    envGet (setEdiRoleEnv sel env) k = envGet env k := by
  have h' : ¬ ("EDI_ROLE" = k) := fun e => h e.symm
  unfold envGet setEdiRoleEnv
  simp [List.find?_cons, h']

/-- Writing `EDI_ROLE` makes it readable back. -/
theorem envGet_setEdiRoleEnv_self (sel : UserRole) (env : Env) :
    envGet (setEdiRoleEnv sel env) "EDI_ROLE" = some (businessRoleToEdiRole sel) := by
  unfold envGet setEdiRoleEnv
  simp [List.find?_cons]

/-- C10: the sidebar selector writes `operator`/`admin`/`viewer` into
`EDI_ROLE`, while `get_current_role` reads the distinct variable
`CONTROL_TOWER_ROLE` and recognizes only `Ops`/`Manager`/`Exec`; so with
`CONTROL_TOWER_ROLE` unset, the role seen by all permission checks is
`Role.ops` regardless of the sidebar selection, and two runs with different
selections see the same role. -/
theorem C10_role_env_mismatch :
    ∀ (env : Env) (sel1 sel2 : UserRole),
      envGet env "CONTROL_TOWER_ROLE" = Option.none →
      envGet (setEdiRoleEnv sel1 env) "EDI_ROLE" = some (businessRoleToEdiRole sel1) ∧
      (businessRoleToEdiRole sel1 = "operator" ∨ businessRoleToEdiRole sel1 = "admin" ∨
        businessRoleToEdiRole sel1 = "viewer") ∧
      roleOfValue (businessRoleToEdiRole sel1) = Option.none ∧
      envGet (setEdiRoleEnv sel1 env) "CONTROL_TOWER_ROLE" = Option.none ∧
      currentRoleInEnv (setEdiRoleEnv sel1 env) = Role.ops ∧
      currentRoleInEnv (setEdiRoleEnv sel1 env) = currentRoleInEnv (setEdiRoleEnv sel2 env) := by
  intro env sel1 sel2 h
  have hne : "CONTROL_TOWER_ROLE" ≠ "EDI_ROLE" := by decide
  have hget : ∀ sel : UserRole,
      envGet (setEdiRoleEnv sel env) "CONTROL_TOWER_ROLE" = Option.none := fun sel =>
    (envGet_setEdiRoleEnv_other sel env _ hne).trans h
  refine ⟨envGet_setEdiRoleEnv_self sel1 env, ?_, ?_, hget sel1, ?_, ?_⟩
  · cases sel1
    · exact Or.inl rfl
    · exact Or.inr (Or.inl rfl)
    · exact Or.inr (Or.inr rfl)
  · cases sel1 <;> rfl
  · unfold currentRoleInEnv
    rw [hget sel1]
    rfl
  · unfold currentRoleInEnv
    rw [hget sel1, hget sel2]

/-- Witness for C10 on the empty environment. -/
theorem C10_witness :
    currentRoleInEnv (setEdiRoleEnv UserRole.ops ([] : Env)) = Role.ops ∧
    currentRoleInEnv (setEdiRoleEnv UserRole.ops ([] : Env)) =
      currentRoleInEnv (setEdiRoleEnv UserRole.exec ([] : Env)) :=
  ⟨(C10_role_env_mismatch ([] : Env) UserRole.ops UserRole.exec rfl).2.2.2.2.1,
   (C10_role_env_mismatch ([] : Env) UserRole.ops UserRole.exec rfl).2.2.2.2.2⟩

/-- C3: `get_live_status` is total (never raises — the modelled
`health_check` catches any exception); it performs one health check and
returns a record whose `checked_at` is the call time, whose `ok` mirrors
the health check's boolean, hence is `false` whenever the check fails or
raises, and whose `details` map the `n8n` backend to `{"ok": <bool>}`. -/
theorem C3_get_live_status :
    ∀ (now : Nat) (outcome : HealthOutcome),
      (getLiveStatus now outcome).checked_at = now ∧
      (getLiveStatus now outcome).ok = healthCheck outcome ∧
      (getLiveStatus now outcome).details =
        [("n8n", .dict [("ok", .bool (healthCheck outcome))])] ∧
      (outcome ≠ HealthOutcome.ok → (getLiveStatus now outcome).ok = false) := by
  intro now outcome
  refine ⟨rfl, rfl, rfl, ?_⟩
  intro h
  cases outcome with
  | ok => exact absurd rfl h
  | httpFail => rfl
  | raised => rfl

/-- Witness for C3 at a raising health check. -/
theorem C3_witness :
    (getLiveStatus 7 HealthOutcome.raised).ok = false ∧
    (getLiveStatus 7 HealthOutcome.raised).checked_at = 7 :=
  ⟨(C3_get_live_status 7 HealthOutcome.raised).2.2.2 (by decide),
   (C3_get_live_status 7 HealthOutcome.raised).1⟩

/-- C8: for the view-only `Exec` role, the Upload page renders the title and
the permission-denied message and returns — zero webhook calls, zero
database connections — and the entire trace is a constant independent of the
backend's behavior and of the page input. -/
theorem C8_exec_upload_denied :
    ∀ (b : UploadBackend) (inp : UploadPageInput),
      uploadRender Role.exec b inp =
        { msgs := [.title "File upload", .info "Your role does not allow uploads."]
        , webhookCalls := 0, dbCalls := 0 } ∧
      (uploadRender Role.exec b inp).webhookCalls = 0 ∧
      (uploadRender Role.exec b inp).dbCalls = 0 ∧
      (∀ b2 : UploadBackend, uploadRender Role.exec b inp = uploadRender Role.exec b2 inp) := by
  intro b inp
  have h : ∀ (b' : UploadBackend) (inp' : UploadPageInput),
      uploadRender Role.exec b' inp' =
        { msgs := [.title "File upload", .info "Your role does not allow uploads."]
        , webhookCalls := 0, dbCalls := 0 } := by
    intro b' inp'
    have hc : canAccess Feature.upload Role.exec = false := rfl
    simp [uploadRender, hc]
  exact ⟨h b inp, by rw [h b inp], by rw [h b inp], fun b2 => (h b inp).trans (h b2 inp).symm⟩

/-- C7 fails as stated: in Python `bool` is a subclass of `int`, so
`isinstance(True, (int, float))` holds and `_extract_progress` returns
`1.0` for `{"progress": true}`, although `true` is not a number and the
claim then requires `None`. -/
theorem C7_counterexample :
    specIsNumber (pyGet (.dict [("progress", .bool true)]) "progress") = false ∧
    extractProgress (.dict [("progress", .bool true)]) = some 1 ∧
    some (1 : ℚ) ≠ Option.none :=
  ⟨rfl, by simp [extractProgress, pyGet, pyNumVal?, List.find?], by simp⟩

/-- C7 amended: when the `progress` field passes the code's numeric check
(`isinstance(val, (int, float))`, which Python booleans pass as `1`/`0`),
the result is in `[0, 1]` — values above 1 are divided by 100 and clamped,
values at most 1 clamped directly; when the field is absent or fails that
check, the result is `None`. -/
theorem C7_amended :
    ∀ statusResp : PyVal,
      (∀ p : ℚ, extractProgress statusResp = some p → 0 ≤ p ∧ p ≤ 1) ∧
      (∀ q : ℚ, pyNumVal? (pyGet statusResp "progress") = some q → 1 < q →
        extractProgress statusResp = some (max 0 (min 1 (q / 100)))) ∧
      (∀ q : ℚ, pyNumVal? (pyGet statusResp "progress") = some q → q ≤ 1 →
        extractProgress statusResp = some (max 0 (min 1 q))) ∧
      (pyNumVal? (pyGet statusResp "progress") = Option.none →
        extractProgress statusResp = Option.none) := by
  intro r
  refine ⟨?_, ?_, ?_, ?_⟩
  · intro p hp
    rcases hq : pyNumVal? (pyGet r "progress") with _ | q
    · simp [extractProgress, hq] at hp
    · simp only [extractProgress, hq] at hp
      have hbounds : ∀ x : ℚ, 0 ≤ max 0 (min 1 x) ∧ max 0 (min 1 x) ≤ 1 := fun x =>
        ⟨le_max_left 0 _, max_le zero_le_one (min_le_left 1 x)⟩
      by_cases h1 : 1 < q
      · rw [if_pos h1, Option.some.injEq] at hp
        exact hp ▸ hbounds _
      · rw [if_neg h1, Option.some.injEq] at hp
        exact hp ▸ hbounds _
  · intro q hq h1
    simp only [extractProgress, hq]
    rw [if_pos h1]
  · intro q hq h1
    simp only [extractProgress, hq]
    rw [if_neg (not_lt.mpr h1)]
  · intro hq
    simp only [extractProgress, hq]

/-- Witness for C7 amended at concrete status responses. -/
theorem C7_amended_witness :
    extractProgress (.dict [("progress", .num 50)]) = some (max 0 (min 1 ((50 : ℚ) / 100))) ∧
    extractProgress (.dict [("progress", .num (1/2))]) = some (max 0 (min 1 ((1 : ℚ)/2))) ∧
    extractProgress (.dict [("progress", .str "half")]) = Option.none :=
  ⟨(C7_amended (.dict [("progress", .num 50)])).2.1 50 rfl (by norm_num),
   (C7_amended (.dict [("progress", .num (1/2))])).2.2.1 (1/2) rfl (by norm_num),
   (C7_amended (.dict [("progress", .str "half")])).2.2.2 rfl⟩

/-- `find?` after overwriting key `k`: the first entry with key `k` in the
mapped list is the overwritten one. -/
theorem find?_set_present (m : List (String × PyVal)) (k : String) (v : PyVal)
    (h : m.any (fun p => p.1 = k) = true) :
    List.find? (fun p => p.1 = k) (m.map (fun p => if p.1 = k then (k, v) else p)) =
      some (k, v) := by
  induction m with
  | nil => simp at h
  | cons hd tl ih =>
      simp only [List.map_cons]
      by_cases hh : hd.1 = k
      · rw [if_pos hh]
        simp [List.find?_cons]
      · rw [if_neg hh]
        have h' : tl.any (fun p => p.1 = k) = true := by
          simpa [List.any_cons, hh] using h
        simp [List.find?_cons, hh, ih h']

/-- `find?` for a key `q ≠ k` is unchanged by overwriting key `k`. -/
theorem find?_set_other (m : List (String × PyVal)) (k : String) (v : PyVal) (q : String)
    (hq : ¬ (q = k)) :
    List.find? (fun p => p.1 = q) (m.map (fun p => if p.1 = k then (k, v) else p)) =
      List.find? (fun p => p.1 = q) m := by
  induction m with
  | nil => rfl
  | cons hd tl ih =>
      simp only [List.map_cons]
      by_cases hh : hd.1 = k
      · have h1 : ¬ (k = q) := fun e => hq e.symm
        have h2 : ¬ (hd.1 = q) := by rw [hh]; exact h1
        rw [if_pos hh]
        simp [List.find?_cons, h1, h2, ih]
      · rw [if_neg hh]
        simp [List.find?_cons, ih]

/-- Dict assignment and lookup: `m[k] = v` makes `k` read back `v` and
leaves every other key unchanged. -/
theorem assocGet_assocSet (m : List (String × PyVal)) (k : String) (v : PyVal) (q : String) :
    assocGet? (assocSet m k v) q = if q = k then some v else assocGet? m q := by
  unfold assocSet assocGet?
  by_cases hA : m.any (fun p => p.1 = k) = true
  · rw [if_pos hA]
    by_cases hq : q = k
    · subst hq
      rw [if_pos rfl, find?_set_present m q v hA]
      rfl
    · rw [if_neg hq, find?_set_other m k v q hq]
  · rw [if_neg hA]
    have hnone : List.find? (fun p => p.1 = k) m = Option.none :=
      List.find?_eq_none.mpr (fun x hx hpx => hA (List.any_eq_true.mpr ⟨x, hx, hpx⟩))
    by_cases hq : q = k
    · subst hq
      rw [if_pos rfl, List.find?_append, hnone]
      simp [List.find?_cons]
    · rw [if_neg hq, List.find?_append]
      have h1 : ¬ (k = q) := fun e => hq e.symm
      have h2 : List.find? (fun p => p.1 = q) [(k, v)] = Option.none := by
        simp [List.find?_cons, h1]
      rw [h2]
      cases List.find? (fun p => p.1 = q) m <;> rfl

/-- `getLast?` of a cons, expressed with `Option.or`. -/
theorem getLast?_cons_or {α : Type} (a : α) (l : List α) :
    (a :: l).getLast? = (l.getLast?).or (some a) := by
  induction l generalizing a with
  | nil => rfl
  | cons b m ih =>
      rw [List.getLast?_cons_cons, ih b]
      rcases h : m.getLast? with _ | x <;> simp [Option.or]

/-- The `latest_by_stage` dict maps each stage to the last event of that
stage (and is empty at stages never seen, relative to the accumulator). -/
theorem assocGet_foldl_latest :
    ∀ (events : List PyVal) (acc : List (String × PyVal)) (q : String),
      assocGet? (events.foldl (fun m ev => assocSet m (inferStepName ev) ev) acc) q =
        ((events.filter (fun ev => inferStepName ev = q)).getLast?).or (assocGet? acc q) := by
  intro events
  induction events with
  | nil =>
      intro acc q
      simp [Option.or]
  | cons ev evs ih =>
      intro acc q
      rw [List.foldl_cons, ih, assocGet_assocSet]
      by_cases hq : inferStepName ev = q
      · rw [if_pos hq.symm, List.filter_cons, if_pos (by simp [hq]), getLast?_cons_or]
        rcases h : (List.filter (fun ev => inferStepName ev = q) evs).getLast? with _ | x <;>
          simp [Option.or]
      · rw [if_neg (fun e => hq e.symm), List.filter_cons, if_neg (by simp [hq])]

/-- The `latest_by_stage` dict built by the database branch maps each stage
name to the last (i.e. latest, events being time-ascending) event carrying
that stage name. -/
theorem latestByStage_is_last (events : List PyVal) (q : String) :
    assocGet? (latestByStage events) q =
      (events.filter (fun ev => inferStepName ev = q)).getLast? := by
  unfold latestByStage
  rw [assocGet_foldl_latest events [] q]
  rcases h : (List.filter (fun ev => inferStepName ev = q) events).getLast? with _ | x <;>
    simp [assocGet?, Option.or]

/-- The `seen`-set deduplication yields `[]` only from `[]`. -/
theorem dedupFirst_aux_ne_nil :
    ∀ (l acc : List String),
      l.foldl (fun acc s => if acc.contains s then acc else acc ++ [s]) acc = [] →
      acc = [] ∧ l = [] := by
  intro l
  induction l with
  | nil => exact fun acc h => ⟨h, rfl⟩
  | cons x xs ih =>
      intro acc h
      rw [List.foldl_cons] at h
      obtain ⟨ha, _⟩ := ih _ h
      by_cases hc : acc.contains x = true
      · rw [if_pos hc] at ha
        subst ha
        simp at hc
      · rw [if_neg hc] at ha
        simp at ha

/-- A non-empty event list has at least one distinct stage. -/
theorem stagesOf_ne_nil (events : List PyVal) (h : events ≠ []) :
    stagesOf events ≠ [] := by
  intro hS
  unfold stagesOf dedupFirst at hS
  obtain ⟨_, hmap⟩ := dedupFirst_aux_ne_nil _ _ hS
  exact h (List.map_eq_nil_iff.mp hmap)

/-- C6: in the database-polling branch, when the event list is non-empty and
its last event carries no numeric `progress`, the derived completion ratio
equals (stages whose latest event's status buckets as terminal-success) /
(distinct stages seen), lies in `[0, 1]`, and the dedup dict keeps exactly
the latest event per named stage. -/
theorem C6_db_stage_completion :
    ∀ events : List PyVal, events ≠ [] →
      pyNumVal? (pyGet ((events.getLast?).getD (.dict [])) "progress") = Option.none →
      dbDerivedProgress events =
        some ((okStageCount events : ℚ) / ((stagesOf events).length : ℚ)) ∧
      okStageCount events ≤ (stagesOf events).length ∧
      (∀ p : ℚ, dbDerivedProgress events = some p → 0 ≤ p ∧ p ≤ 1) ∧
      okStageCount events =
        ((stagesOf events).filter (fun s =>
          statusBucket (inferStatus ((assocGet? (latestByStage events) s).getD (.dict []))) =
            "ok")).length ∧
      (∀ s : String, assocGet? (latestByStage events) s =
        (events.filter (fun ev => inferStepName ev = s)).getLast?) := by
  intro events hne hprog
  have hS : stagesOf events ≠ [] := stagesOf_ne_nil events hne
  have hlen : 1 ≤ (stagesOf events).length := by
    cases h : stagesOf events with
    | nil => exact absurd h hS
    | cons a l => simp
  have hie : (stagesOf events).isEmpty = false := by
    cases h : stagesOf events with
    | nil => exact absurd h hS
    | cons a l => rfl
  have hmax : max 1 (stagesOf events).length = (stagesOf events).length :=
    Nat.max_eq_right hlen
  have hval : dbDerivedProgress events =
      some ((okStageCount events : ℚ) / ((stagesOf events).length : ℚ)) := by
    simp only [dbDerivedProgress, hprog, hie, Bool.false_eq_true, if_false, hmax]
  refine ⟨hval, List.countP_le_length _, ?_, List.countP_eq_length_filter _ _,
    latestByStage_is_last events⟩
  intro p hp
  rw [hval, Option.some.injEq] at hp
  subst hp
  have hpos : (0 : ℚ) < ((stagesOf events).length : ℚ) := by
    exact_mod_cast Nat.lt_of_lt_of_le Nat.zero_lt_one hlen
  constructor
  · exact div_nonneg (Nat.cast_nonneg _) (Nat.cast_nonneg _)
  · rw [div_le_one hpos]
    exact_mod_cast List.countP_le_length _

/-- Witness for C6 on a concrete two-stage event list (one succeeded stage,
one failed). -/
theorem C6_witness :
    dbDerivedProgress
        [.dict [("stage", .str "parse"), ("status", .str "completed")],
         .dict [("stage", .str "deliver"), ("status", .str "failed")]] =
      some ((okStageCount
          [.dict [("stage", .str "parse"), ("status", .str "completed")],
           .dict [("stage", .str "deliver"), ("status", .str "failed")]] : ℚ) /
        ((stagesOf
          [.dict [("stage", .str "parse"), ("status", .str "completed")],
           .dict [("stage", .str "deliver"), ("status", .str "failed")]]).length : ℚ)) ∧
    okStageCount
        [.dict [("stage", .str "parse"), ("status", .str "completed")],
         .dict [("stage", .str "deliver"), ("status", .str "failed")]] = 1 ∧
    (stagesOf
        [.dict [("stage", .str "parse"), ("status", .str "completed")],
         .dict [("stage", .str "deliver"), ("status", .str "failed")]]).length = 2 :=
  ⟨(C6_db_stage_completion
      [.dict [("stage", .str "parse"), ("status", .str "completed")],
       .dict [("stage", .str "deliver"), ("status", .str "failed")]]
      (by simp) (by rfl)).1,
   by decide, by decide⟩

/-- A poll step on which the loop keeps going: a database-branch wait, or a
response that is neither terminal nor error-raising. -/
def cleanStep (seq : Nat → PollStep) (k : Nat) : Prop :=
  seq k = PollStep.wait ∨ ∃ r, seq k = PollStep.resp r ∧ isDoneE r = Except.ok false

/-- One unfolding of the loop on a clean step: the iteration sleeps and
continues, time advancing by `interval`. -/
theorem pollLoop_step (seq : Nat → PollStep) (maxWait interval : Nat)
    (hI : 0 < interval) (e n : Nat) (he : ¬ maxWait < e)
    (h : cleanStep seq n) :
    pollLoop seq maxWait interval hI e n = pollLoop seq maxWait interval hI (e + interval) (n + 1) := by
  rcases h with h | ⟨r, h, hd⟩
  · conv_lhs => rw [pollLoop]
    simp [he, h]
  · conv_lhs => rw [pollLoop]
    simp [he, h, hd]

/-- Running the loop across `m` clean steps advances time by `m * interval`. -/
theorem pollLoop_reaches (seq : Nat → PollStep) (maxWait interval : Nat) (hI : 0 < interval) :
    ∀ (m e n : Nat), (∀ k, k < m → cleanStep seq (n + k)) →
      e + m * interval ≤ maxWait →
      pollLoop seq maxWait interval hI e n =
        pollLoop seq maxWait interval hI (e + m * interval) (n + m) := by
  intro m
  induction m with
  | zero => intro e n _ _; simp
  | succ m ihm =>
      intro e n hcl hbud
      have hle : e ≤ maxWait := le_trans (Nat.le_add_right e _) hbud
      have he : ¬ maxWait < e := Nat.not_lt.mpr hle
      have h0 : cleanStep seq n := by simpa using hcl 0 (Nat.succ_pos m)
      rw [pollLoop_step seq maxWait interval hI e n he h0]
      have hb : e + interval + m * interval ≤ maxWait := by
        rw [Nat.succ_mul] at hbud; omega
      have hcl' : ∀ k, k < m → cleanStep seq (n + 1 + k) := by
        intro k hk
        have h := hcl (k + 1) (by omega)
        have heq : n + (k + 1) = n + 1 + k := by omega
        rw [heq] at h
        exact h
      rw [ihm (e + interval) (n + 1) hcl' hb]
      have h1 : e + interval + m * interval = e + (m + 1) * interval := by
        rw [Nat.succ_mul]; ring
      have h2 : n + 1 + m = n + (m + 1) := by omega
      rw [h1, h2]

/-- A `Done` exit always carries a response passing the code's terminal
test (fuel-indexed helper). -/
theorem pollLoop_done_isDone_aux (seq : Nat → PollStep) (maxWait interval : Nat)
    (hI : 0 < interval) :
    ∀ (d e n : Nat) (r : PyVal), maxWait + 1 - e ≤ d →
      pollLoop seq maxWait interval hI e n = LoopExit.done r →
      isDoneE r = Except.ok true := by
  intro d
  induction d with
  | zero =>
      intro e n r hd h
      have he : maxWait < e := by omega
      rw [pollLoop] at h
      simp [he] at h
  | succ d ih =>
      intro e n r hd h
      by_cases he : maxWait < e
      · rw [pollLoop] at h; simp [he] at h
      · rw [pollLoop] at h
        simp only [if_neg he] at h
        cases hs : seq n with
        | exc => rw [hs] at h; simp at h
        | wait =>
            rw [hs] at h
            exact ih (e + interval) (n + 1) r (by omega) h
        | resp rr =>
            cases hdd : isDoneE rr with
            | error u => simp [hs, hdd] at h
            | ok b =>
                cases b with
                | true =>
                    simp only [hs, hdd, LoopExit.done.injEq] at h
                    subst h
                    exact hdd
                | false =>
                    simp only [hs, hdd] at h
                    exact ih (e + interval) (n + 1) r (by omega) h

/-- If every step within the time budget is clean, the loop times out
(fuel-indexed helper). -/
theorem pollLoop_timeout_aux (seq : Nat → PollStep) (maxWait interval : Nat)
    (hI : 0 < interval) :
    ∀ (d e n : Nat), maxWait + 1 - e ≤ d →
      (∀ k, e + k * interval ≤ maxWait → cleanStep seq (n + k)) →
      pollLoop seq maxWait interval hI e n = LoopExit.timedOut := by
  intro d
  induction d with
  | zero =>
      intro e n hd _
      have he : maxWait < e := by omega
      rw [pollLoop]
      simp [he]
  | succ d ih =>
      intro e n hd hcl
      by_cases he : maxWait < e
      · rw [pollLoop]; simp [he]
      · have h0 : cleanStep seq n := by
          simpa using hcl 0 (by omega)
        rw [pollLoop_step seq maxWait interval hI e n he h0]
        apply ih (e + interval) (n + 1) (by omega)
        intro k hk
        have hb : e + (k + 1) * interval ≤ maxWait := by
          rw [Nat.succ_mul]; omega
        have h := hcl (k + 1) hb
        have heq : n + (k + 1) = n + 1 + k := by omega
        rw [heq] at h
        exact h

/-- Running the loop from the start across a clean prefix of length `n`. -/
theorem pollLoop_clean_run (seq : Nat → PollStep) (maxWait interval : Nat)
    (hI : 0 < interval) (n : Nat)
    (hcl : ∀ k, k < n → cleanStep seq k) (hbud : n * interval ≤ maxWait) :
    pollLoop seq maxWait interval hI 0 0 =
      pollLoop seq maxWait interval hI (n * interval) n := by
  have h := pollLoop_reaches seq maxWait interval hI n 0 0
    (fun k hk => by simpa using hcl k hk) (by simpa using hbud)
  simpa using h

/-- C5 fails as stated in two ways: (a) the code's terminal set also contains
`"complete"` and `"success"`, so a `{"status": "success"}` response exits the
loop `Done` although it is outside the claim's fixed set
completed/succeeded/failed/error/cancelled; (b) a terminal response occurring
before max-wait does not guarantee a `Done` exit when an exception occurs at
an earlier poll — the loop exits `Failed` first. -/
theorem C5_counterexample :
    isDoneE (.dict [("status", .str "success")]) = Except.ok true ∧
    specTerminalStatuses.contains "success" = false ∧
    pyGet (.dict [("status", .str "success")]) "done" = PyVal.none ∧
    pollLoop (fun k => if k = 0 then PollStep.exc
        else PollStep.resp (.dict [("status", .str "completed")])) 90 3 (by decide) 0 0 =
      LoopExit.failed ∧
    (fun k => if k = 0 then PollStep.exc
        else PollStep.resp (.dict [("status", .str "completed")])) 1 =
      PollStep.resp (.dict [("status", .str "completed")]) ∧
    isDoneE (.dict [("status", .str "completed")]) = Except.ok true ∧
    1 * 3 ≤ 90 := by
  refine ⟨rfl, rfl, rfl, ?_, rfl, rfl, by decide⟩
  rw [pollLoop]
  simp

/-- C5 amended: for every sequence of poll outcomes and positive interval the
loop is total (the recursion is well-founded on remaining time), and:
a `Done` exit always carries a response passing the code's terminal test —
`done is True` or lowercased `status` in the set completed/complete/
succeeded/success/failed/error/cancelled; the first terminal response within
max-wait yields `Done` provided every earlier poll step was a clean one
(a wait, or a non-terminal non-erroring response); an exception — or a
response whose truthy non-string `status` makes `_is_done` raise — under the
same proviso yields `Failed`; and all-clean steps throughout the budget
yield `TimedOut`. -/
theorem C5_amended :
    ∀ (seq : Nat → PollStep) (maxWait interval : Nat) (hI : 0 < interval),
      (∀ e n r, pollLoop seq maxWait interval hI e n = LoopExit.done r →
        isDoneE r = Except.ok true) ∧
      (∀ n r, seq n = PollStep.resp r → isDoneE r = Except.ok true →
        (∀ k, k < n → cleanStep seq k) → n * interval ≤ maxWait →
        pollLoop seq maxWait interval hI 0 0 = LoopExit.done r) ∧
      (∀ n, seq n = PollStep.exc →
        (∀ k, k < n → cleanStep seq k) → n * interval ≤ maxWait →
        pollLoop seq maxWait interval hI 0 0 = LoopExit.failed) ∧
      (∀ n r u, seq n = PollStep.resp r → isDoneE r = Except.error u →
        (∀ k, k < n → cleanStep seq k) → n * interval ≤ maxWait →
        pollLoop seq maxWait interval hI 0 0 = LoopExit.failed) ∧
      ((∀ k, k * interval ≤ maxWait → cleanStep seq k) →
        pollLoop seq maxWait interval hI 0 0 = LoopExit.timedOut) := by
  intro seq maxWait interval hI
  refine ⟨?_, ?_, ?_, ?_, ?_⟩
  · intro e n r h
    exact pollLoop_done_isDone_aux seq maxWait interval hI (maxWait + 1 - e) e n r le_rfl h
  · intro n r hr hd hcl hbud
    rw [pollLoop_clean_run seq maxWait interval hI n hcl hbud, pollLoop]
    simp [Nat.not_lt.mpr hbud, hr, hd]
  · intro n hexc hcl hbud
    rw [pollLoop_clean_run seq maxWait interval hI n hcl hbud, pollLoop]
    simp [Nat.not_lt.mpr hbud, hexc]
  · intro n r u hr hdd hcl hbud
    rw [pollLoop_clean_run seq maxWait interval hI n hcl hbud, pollLoop]
    simp [Nat.not_lt.mpr hbud, hr, hdd]
  · intro hcl
    apply pollLoop_timeout_aux seq maxWait interval hI (maxWait + 1) 0 0 (by omega)
    intro k hk
    have h := hcl k (by simpa using hk)
    simpa using h

/-- Witness for C5 amended: a constant `{"status": "completed"}` response
sequence makes the loop exit `Done` at once. -/
theorem C5_witness :
    pollLoop (fun _ => PollStep.resp (.dict [("status", .str "completed")])) 90 3
        (by decide) 0 0 =
      LoopExit.done (.dict [("status", .str "completed")]) :=
  (C5_amended (fun _ => PollStep.resp (.dict [("status", .str "completed")])) 90 3
      (by decide)).2.1
    0 (.dict [("status", .str "completed")]) rfl rfl
    (fun k hk => absurd hk (Nat.not_lt_zero k)) (by decide)
